import Mathlib

/-!
Shallow embedding of the creature-collection REST service
(Hono + Prisma, `src/index.ts`, schema from the SQL migration).

The relational store is modelled as lists of rows plus serial counters;
each Prisma call becomes an explicit function on the store that enforces
the constraints declared in the migration (unique `User.email`, unique
`Pokemon.name`, foreign keys from `CaughtPokemon` with ON DELETE RESTRICT).
Each route handler becomes a function from inputs and store to a
result/store pair, translated line by line from `src/index.ts`.
-/

/-- A row of the `User` table (id SERIAL, email unique, hashedPassword). -/
structure User where
  id : Nat
  email : String
  hashedPassword : String
deriving Repr, DecidableEq

/-- A row of the `Pokemon` table (id SERIAL, name unique, type, height). -/
structure Pokemon where
  id : Nat
  name : String
  type : String
  height : Int
deriving Repr, DecidableEq

/-- A row of the `CaughtPokemon` table (id SERIAL, userId and pokemonId
foreign keys, optional nickname, denormalized pokemonType). -/
structure CaughtPokemon where
  id : Nat
  userId : Nat
  pokemonId : Nat
  nickname : Option String
  pokemonType : String
deriving Repr, DecidableEq

/-- The relational store: the three tables plus the serial counters that
generate fresh primary keys. -/
structure DB where
  users : List User
  pokemons : List Pokemon
  caught : List CaughtPokemon
  nextUserId : Nat
  nextPokemonId : Nat
  nextCaughtId : Nat
deriving Repr, DecidableEq

/-- Prisma known request errors that the handlers branch on:
P2002 unique-constraint violation, P2003 foreign-key violation,
P2025 record not found, plus any other storage failure. -/
inductive PrismaError where
  | P2002
  | P2003
  | P2025
  | other (code : String)
deriving Repr, DecidableEq

/-- `prisma.user.create`: insert honouring the unique index on email.
The uniqueness violation is detected at write time (P2002), mirroring
the atomic insert-with-unique-constraint of the storage engine. -/
def userCreate (db : DB) (email hashedPassword : String) :
    Except PrismaError (User × DB) :=
  if db.users.any (fun u => u.email == email) then
    .error .P2002
  else
    let u : User := ⟨db.nextUserId, email, hashedPassword⟩
    .ok (u, { db with users := db.users ++ [u], nextUserId := db.nextUserId + 1 })

/-- `prisma.user.findUnique({ where: { email } })`. -/
def userFindByEmail (db : DB) (email : String) : Option User :=
  db.users.find? (fun u => u.email == email)

/-- `prisma.pokemon.findUnique({ where: { name } })`. -/
def pokemonFindByName (db : DB) (name : String) : Option Pokemon :=
  db.pokemons.find? (fun p => p.name == name)

/-- `prisma.pokemon.create`: insert honouring the unique index on name. -/
def pokemonCreate (db : DB) (name type : String) (height : Int) :
    Except PrismaError (Pokemon × DB) :=
  if db.pokemons.any (fun p => p.name == name) then
    .error .P2002
  else
    let p : Pokemon := ⟨db.nextPokemonId, name, type, height⟩
    .ok (p, { db with pokemons := db.pokemons ++ [p],
                      nextPokemonId := db.nextPokemonId + 1 })

/-- `prisma.pokemon.update({ where: { id } })`: P2025 when the row is
absent, P2002 when the new name collides with another row. -/
def pokemonUpdate (db : DB) (id : Nat) (name type : String) (height : Int) :
    Except PrismaError (Pokemon × DB) :=
  match db.pokemons.find? (fun p => p.id == id) with
  | none => .error .P2025
  | some _ =>
      if db.pokemons.any (fun p => p.id != id && p.name == name) then
        .error .P2002
      else
        let upd : Pokemon → Pokemon := fun p =>
          if p.id == id then ⟨p.id, name, type, height⟩ else p
        .ok (⟨id, name, type, height⟩,
             { db with pokemons := db.pokemons.map upd })

/-- `prisma.pokemon.delete({ where: { name } })`: P2025 when absent; the
foreign key from CaughtPokemon.pokemonId is ON DELETE RESTRICT, so the
delete is rejected (P2003) when any caught record references the row. -/
def pokemonDelete (db : DB) (name : String) :
    Except PrismaError (Pokemon × DB) :=
  match db.pokemons.find? (fun p => p.name == name) with
  | none => .error .P2025
  | some p =>
      if db.caught.any (fun c => c.pokemonId == p.id) then
        .error .P2003
      else
        .ok (p, { db with pokemons := db.pokemons.filter (fun q => q.name != name) })

/-- `prisma.caughtPokemon.findMany({ where: { userId } })`. -/
def caughtFindMany (db : DB) (userId : Nat) : List CaughtPokemon :=
  db.caught.filter (fun c => c.userId == userId)

/-- `prisma.caughtPokemon.create`: insert checking both declared foreign
keys (userId references User.id, pokemonId references Pokemon.id). -/
def caughtCreate (db : DB) (userId pokemonId : Nat) (pokemonType : String) :
    Except PrismaError (CaughtPokemon × DB) :=
  if db.users.any (fun u => u.id == userId) then
    if db.pokemons.any (fun p => p.id == pokemonId) then
      let c : CaughtPokemon := ⟨db.nextCaughtId, userId, pokemonId, none, pokemonType⟩
      .ok (c, { db with caught := db.caught ++ [c],
                        nextCaughtId := db.nextCaughtId + 1 })
    else .error .P2003
  else .error .P2003

/-- The per-row effect of the nickname update: rows matching the joint
(id AND userId) filter get the new nickname, all other rows are kept. -/
def setNickname (id userId : Nat) (nickname : Option String)
    (c : CaughtPokemon) : CaughtPokemon :=
  if c.id == id && c.userId == userId then { c with nickname := nickname } else c

/-- `prisma.caughtPokemon.updateMany({ where: { id, userId } })`: returns
the matched-row count together with the updated store. -/
def caughtUpdateMany (db : DB) (id userId : Nat) (nickname : Option String) :
    Nat × DB :=
  ((db.caught.filter (fun c => c.id == id && c.userId == userId)).length,
   { db with caught := db.caught.map (setNickname id userId nickname) })

/-- `prisma.caughtPokemon.deleteMany({ where: { id, userId } })`: returns
the matched-row count together with the updated store. -/
def caughtDeleteMany (db : DB) (id userId : Nat) : Nat × DB :=
  ((db.caught.filter (fun c => c.id == id && c.userId == userId)).length,
   { db with caught := db.caught.filter (fun c => !(c.id == id && c.userId == userId)) })

/-!
Session tokens. `src/index.ts` signs `{ sub, exp }` with the shared
secret "mySecretKey" via the external `jsonwebtoken` library and verifies
it in the `hono/jwt` middleware mounted on `/protected/*`. The signing
and verification primitives themselves live in those libraries, not in
this repository, so they are modelled from the spec.
-/

/-- The JWT payload built at signin: subject identifier and unix-seconds
expiry. -/
structure JwtPayload where
  sub : Nat
  exp : Nat
deriving Repr, DecidableEq

/-- Modelled from the spec: a signed bearer token produced by the external
`jsonwebtoken.sign` — the payload together with the secret it was signed
with (signature integrity holds exactly when the verifying secret matches
the signing secret). -/
structure SignedToken where
  payload : JwtPayload
  signedWith : String
deriving Repr, DecidableEq

/-- Modelled from the spec: `jsonwebtoken.sign(payload, secret)`. -/
def sign (payload : JwtPayload) (secret : String) : SignedToken :=
  ⟨payload, secret⟩

/-- Authentication failures of the Access Gate: missing header, invalid
signature/malformed token, expired token. -/
inductive AuthError where
  | Missing
  | Invalid
  | Expired
deriving Repr, DecidableEq

/-- Modelled from the spec: token verification of the `hono/jwt`
middleware — checks signature integrity first (Invalid on mismatch), then
checks that the expiry is still in the future (Expired once
`exp ≤ now`), and only then yields the subject. -/
def verifyToken (t : SignedToken) (secret : String) (now : Nat) :
    Except AuthError Nat :=
  if t.signedWith != secret then .error .Invalid
  else if t.payload.exp ≤ now then .error .Expired
  else .ok t.payload.sub

/-- The authorization header of a protected request: absent, syntactically
malformed (not a well-formed bearer token), or carrying a signed token. -/
inductive AuthHeader where
  | missing
  | malformed (raw : String)
  | bearer (t : SignedToken)
deriving Repr, DecidableEq

/-- Modelled from the spec: the Access Gate (`jwt({ secret: 'mySecretKey' })`
mounted on `/protected/*`) — extracts the bearer token from the header and
verifies it with the shared secret. -/
def authGate (h : AuthHeader) (now : Nat) : Except AuthError Nat :=
  match h with
  | .missing => .error .Missing
  | .malformed _ => .error .Invalid
  | .bearer t => verifyToken t "mySecretKey" now

/-- Response payload variants of the handlers (the `data` field of the
JSON responses). -/
inductive ApiData where
  | none
  | caughtList (xs : List (CaughtPokemon × Option Pokemon))
  | caughtRecord (c : CaughtPokemon)
  | updateCount (n : Nat)
  | pokemonData (p : Pokemon)
deriving Repr, DecidableEq

/-- An HTTP-level outcome: status code, message, and data payload. -/
structure Result where
  status : Nat
  message : String
  data : ApiData
deriving Repr, DecidableEq

/-- The response the jwt middleware sends when verification fails. -/
def unauthorizedResult : Result := ⟨401, "Unauthorized", ApiData.none⟩

/-- The middleware pipeline for `/protected/*`: the Access Gate runs
before the handler; on failure the request is rejected with 401 and the
handler (and hence any storage access) never runs, on success the
verified subject is passed to the handler. -/
def runProtected (handler : Nat → DB → Result × DB)
    (h : AuthHeader) (now : Nat) (db : DB) : Result × DB :=
  match authGate h now with
  | .error _ => (unauthorizedResult, db)
  | .ok sub => handler sub db

/-!  Route handlers, translated from `src/index.ts`.  -/

/-- Modelled from the spec: `Bun.password.hash` — an abstract one-way
hashing capability; only the agreement of hash and verify matters here. -/
def bcryptHash (password : String) : String :=
  "bcrypt$" ++ password

/-- Modelled from the spec: `Bun.password.verify`. -/
def bcryptVerify (password hash : String) : Bool :=
  bcryptHash password == hash

/-- The catch-block of POST /signup: P2002 (email uniqueness violation)
is reported as a plain 200 message, every other storage failure as 500. -/
def signupCatch (e : PrismaError) : Result :=
  match e with
  | .P2002 => ⟨200, "Email already exists", ApiData.none⟩
  | _ => ⟨500, "Internal Server Error", ApiData.none⟩

/-- POST /signup: hash the password, insert the user, report success;
uniqueness is left to the storage layer (no prior existence check). -/
def signup (db : DB) (email password : String) : Result × DB :=
  match userCreate db email (bcryptHash password) with
  | .ok (u, db') => (⟨200, u.email ++ " created successfully", ApiData.none⟩, db')
  | .error e => (signupCatch e, db)

/-- POST /signin: look up by email (404 when absent), verify the
password (401 on mismatch), and on success issue a token whose expiry is
the current unix time plus 20 minutes. `nowMs` is `Date.now()`. -/
def signin (db : DB) (email password : String) (nowMs : Nat) :
    Result × Option SignedToken :=
  match userFindByEmail db email with
  | none => (⟨404, "User not found", ApiData.none⟩, none)
  | some u =>
      if bcryptVerify password u.hashedPassword then
        (⟨200, "Login successful", ApiData.none⟩,
         some (sign ⟨u.id, nowMs / 1000 + 60 * 20⟩ "mySecretKey"))
      else
        (⟨401, "Unauthorized", ApiData.none⟩, none)

/-- The shape of a successful external catalog (PokeAPI) response: the
creature's name, its list of type names, and its height. -/
structure ExtPokemon where
  name : String
  types : List String
  height : Int
deriving Repr, DecidableEq

/-- `pokemonData.types.map(t => t.type.name).join(', ')`. -/
def extTypeString (e : ExtPokemon) : String :=
  String.intercalate ", " e.types

/-- GET /pokemon/:name: local lookup first; on a hit return the stored
row with no external call; on a miss call the external service `ext`
(`none` models failure or not-found), persist the mapped entry and
return it; any failure inside the try-block yields 404. -/
def getPokemon (ext : String → Option ExtPokemon) (name : String) (db : DB) :
    Result × DB :=
  match pokemonFindByName db name with
  | some p => (⟨200, "", ApiData.pokemonData p⟩, db)
  | none =>
      match ext name with
      | none => (⟨404, "Pokemon not found", ApiData.none⟩, db)
      | some d =>
          match pokemonCreate db d.name (extTypeString d) d.height with
          | .ok (p, db') => (⟨200, "", ApiData.pokemonData p⟩, db')
          | .error _ => (⟨404, "Pokemon not found", ApiData.none⟩, db)

/-- POST /pokemon: existence check, then insert; 400 when already
present, 500 on storage failure. -/
def postPokemon (name type : String) (height : Int) (db : DB) : Result × DB :=
  match pokemonFindByName db name with
  | some _ => (⟨400, "Pokemon already exists", ApiData.none⟩, db)
  | none =>
      match pokemonCreate db name type height with
      | .ok (p, db') => (⟨200, "Pokemon added successfully", ApiData.pokemonData p⟩, db')
      | .error _ => (⟨500, "Internal Server Error", ApiData.none⟩, db)

/-- PATCH /pokemon/:id: update the catalog row; P2025 yields 404, any
other storage failure 500. -/
def patchPokemon (id : Nat) (name type : String) (height : Int) (db : DB) :
    Result × DB :=
  match pokemonUpdate db id name type height with
  | .ok (p, db') => (⟨200, "Pokemon updated successfully", ApiData.pokemonData p⟩, db')
  | .error .P2025 => (⟨404, "Pokemon not found", ApiData.none⟩, db)
  | .error _ => (⟨500, "Internal Server Error", ApiData.none⟩, db)

/-- DELETE /pokemon/:name: delete the catalog row; P2025 yields 404,
any other storage failure (including the RESTRICT foreign-key rejection)
500. -/
def deletePokemon (name : String) (db : DB) : Result × DB :=
  match pokemonDelete db name with
  | .ok (p, db') => (⟨200, "Pokemon deleted successfully", ApiData.pokemonData p⟩, db')
  | .error .P2025 => (⟨404, "Pokemon not found", ApiData.none⟩, db)
  | .error _ => (⟨500, "Internal Server Error", ApiData.none⟩, db)

/-- The joined rows GET /protected/caught returns: each caught record of
the subject together with its included catalog row. -/
def getCaughtList (sub : Nat) (db : DB) : List (CaughtPokemon × Option Pokemon) :=
  (caughtFindMany db sub).map
    (fun c => (c, db.pokemons.find? (fun p => p.id == c.pokemonId)))

/-- GET /protected/caught: list the subject's caught records with the
joined catalog data; read-only. -/
def getCaught (sub : Nat) (db : DB) : Result × DB :=
  (⟨200, "", ApiData.caughtList (getCaughtList sub db)⟩, db)

/-- POST /protected/catch: find-or-create the catalog entry (the
caller-supplied type and height are used only on create), then record
the catch with the entry's type denormalized into the new row. A
storage failure escapes the handler as a 500. -/
def catchPokemon (sub : Nat) (name type : String) (height : Int) (db : DB) :
    Result × DB :=
  match pokemonFindByName db name with
  | some p =>
      match caughtCreate db sub p.id p.type with
      | .ok (c, db') => (⟨200, "Pokemon caught", ApiData.caughtRecord c⟩, db')
      | .error _ => (⟨500, "Internal Server Error", ApiData.none⟩, db)
  | none =>
      match pokemonCreate db name type height with
      | .ok (p, db1) =>
          match caughtCreate db1 sub p.id p.type with
          | .ok (c, db2) => (⟨200, "Pokemon caught", ApiData.caughtRecord c⟩, db2)
          | .error _ => (⟨500, "Internal Server Error", ApiData.none⟩, db1)
      | .error _ => (⟨500, "Internal Server Error", ApiData.none⟩, db)

/-- PATCH /protected/update/:id: updateMany under the joint (id AND
userId) filter; zero matched rows yield the 404
"Pokemon not found or not owned by user" rejection. -/
def updateCaught (sub : Nat) (id : Nat) (nickname : Option String) (db : DB) :
    Result × DB :=
  match caughtUpdateMany db id sub nickname with
  | (count, db') =>
      if count == 0 then
        (⟨404, "Pokemon not found or not owned by user", ApiData.none⟩, db')
      else
        (⟨200, "Pokemon updated", ApiData.updateCount count⟩, db')

/-- DELETE /protected/delete/:id: deleteMany under the joint (id AND
userId) filter; the matched-row count is never inspected, the route
answers 200 "Pokemon released" unconditionally. -/
def deleteCaught (sub : Nat) (id : Nat) (db : DB) : Result × DB :=
  match caughtDeleteMany db id sub with
  | (_, db') => (⟨200, "Pokemon released", ApiData.none⟩, db')

/-!  Concrete stores used by the witnesses.  -/

/-- A small concrete store: two accounts, one catalog entry, one caught
record owned by account 1. -/
def sampleDB : DB :=
  ⟨[⟨1, "a@x.com", bcryptHash "pw1"⟩, ⟨2, "b@x.com", bcryptHash "pw2"⟩],
   [⟨1, "pikachu", "electric", 4⟩],
   [⟨1, 1, 1, Option.none, "electric"⟩],
   3, 2, 2⟩

/-!  Claim theorems.  -/

/-- Claim C3: every request under `/protected/*` whose bearer token is
missing, malformed, forged (signed with a different secret), or expired
is rejected with 401 before any handler logic or storage access runs:
the result is the unauthorized response and the untouched store, for
every possible handler. -/
theorem protected_rejects_unverified
    (handler : Nat → DB → Result × DB) (h : AuthHeader) (now : Nat) (db : DB)
    (hfail : h = AuthHeader.missing ∨
      (∃ raw, h = AuthHeader.malformed raw) ∨
      (∃ t, h = AuthHeader.bearer t ∧ t.signedWith ≠ "mySecretKey") ∨
      (∃ t, h = AuthHeader.bearer t ∧ t.payload.exp ≤ now)) :
    runProtected handler h now db = (unauthorizedResult, db) := by
  rcases hfail with h1 | ⟨raw, h1⟩ | ⟨t, h1, h2⟩ | ⟨t, h1, h2⟩ <;> subst h1
  · rfl
  · rfl
  · simp [runProtected, authGate, verifyToken, h2]
  · by_cases hs : t.signedWith = "mySecretKey" <;>
      simp [runProtected, authGate, verifyToken, hs, h2]

/-- Witness for C3 at a concrete input: a missing header on the list
route is rejected with 401 and the store is unchanged. -/
theorem protected_rejects_unverified_witness :
    runProtected getCaught AuthHeader.missing 0 sampleDB =
      (unauthorizedResult, sampleDB) :=
  protected_rejects_unverified getCaught AuthHeader.missing 0 sampleDB (Or.inl rfl)

/-- Claim C4: a token issued at login for subject `u.id` carries expiry
equal to the issuance time (unix seconds) plus exactly 20 minutes;
verifying it before expiry yields the subject, and verifying it at or
after expiry fails with Expired. -/
theorem token_ttl_and_verification
    (db : DB) (email password : String) (nowMs : Nat) (u : User)
    (hfind : userFindByEmail db email = some u)
    (hpw : bcryptVerify password u.hashedPassword = true) :
    (signin db email password nowMs).2 =
      some (sign ⟨u.id, nowMs / 1000 + 20 * 60⟩ "mySecretKey") ∧
    (∀ now, now < nowMs / 1000 + 20 * 60 →
      verifyToken (sign ⟨u.id, nowMs / 1000 + 20 * 60⟩ "mySecretKey")
        "mySecretKey" now = Except.ok u.id) ∧
    (∀ now, nowMs / 1000 + 20 * 60 ≤ now →
      verifyToken (sign ⟨u.id, nowMs / 1000 + 20 * 60⟩ "mySecretKey")
        "mySecretKey" now = Except.error AuthError.Expired) := by
  refine ⟨?_, ?_, ?_⟩
  · simp [signin, hfind, hpw]
  · intro now hnow
    simp [verifyToken, sign]
    omega
  · intro now hnow
    simp [verifyToken, sign]
    omega

/-- Witness for C4 at a concrete input: signing in as account 1 at
`Date.now() = 5000` ms yields the token with expiry `5 + 1200`; it
verifies to subject 1 at time 100 and is Expired at time 1205. -/
theorem token_ttl_and_verification_witness :
    (signin sampleDB "a@x.com" "pw1" 5000).2 =
      some (sign ⟨1, 1205⟩ "mySecretKey") ∧
    verifyToken (sign ⟨1, 1205⟩ "mySecretKey") "mySecretKey" 100 =
      Except.ok 1 ∧
    verifyToken (sign ⟨1, 1205⟩ "mySecretKey") "mySecretKey" 1205 =
      Except.error AuthError.Expired := by
  have h := token_ttl_and_verification sampleDB "a@x.com" "pw1" 5000
    ⟨1, "a@x.com", bcryptHash "pw1"⟩ (by decide) (by decide)
  exact ⟨h.1, h.2.1 100 (by norm_num), h.2.2 1205 (by norm_num)⟩

/-!  Supporting lemmas shared by several claim proofs.  -/

/-- The store after the nickname updateMany: only the caught table
changes, by mapping `setNickname` over it. -/
theorem updateCaught_snd (sub id : Nat) (nickname : Option String) (db : DB) :
    (updateCaught sub id nickname db).2 =
      { db with caught := db.caught.map (setNickname id sub nickname) } := by
  simp only [updateCaught, caughtUpdateMany]
  split <;> rfl

/-- Inversion of a successful catalog update: the caught and user tables
are untouched and the pokemon table is mapped with an id-preserving
update. -/
theorem pokemonUpdate_ok_inv (db : DB) (id : Nat) (name type : String)
    (height : Int) (p : Pokemon) (db' : DB)
    (h : pokemonUpdate db id name type height = Except.ok (p, db')) :
    db'.caught = db.caught ∧ db'.users = db.users ∧
    db'.pokemons = db.pokemons.map
      (fun q => if q.id == id then ⟨q.id, name, type, height⟩ else q) := by
  unfold pokemonUpdate at h
  split at h
  · cases h
  · split at h
    · cases h
    · cases h
      exact ⟨rfl, rfl, rfl⟩

/-- PATCH /pokemon/:id never touches the caught table. -/
theorem patchPokemon_caught (pid : Nat) (pname ptype : String) (ph : Int)
    (db : DB) : (patchPokemon pid pname ptype ph db).2.caught = db.caught := by
  unfold patchPokemon
  cases h : pokemonUpdate db pid pname ptype ph with
  | ok pr =>
      obtain ⟨p, db'⟩ := pr
      simpa using (pokemonUpdate_ok_inv db pid pname ptype ph p db' h).1
  | error e => cases e <;> rfl

/-- Claim C5: with a fresh email, signing up stores one account row for
that email; a second signup with the same email is detected by the
storage layer's uniqueness violation at write time, leaves the store
unchanged, and is reported as a 200 "Email already exists" message,
while any other storage failure is reported as a 500. -/
theorem signup_conflict_semantics
    (db : DB) (email p1 p2 : String)
    (hfresh : ∀ u ∈ db.users, u.email ≠ email) :
    ((signup db email p1).2.users.filter (fun u => u.email == email)).length = 1 ∧
    signup (signup db email p1).2 email p2 =
      (⟨200, "Email already exists", ApiData.none⟩, (signup db email p1).2) ∧
    ((signup (signup db email p1).2 email p2).2.users.filter
        (fun u => u.email == email)).length = 1 ∧
    (∀ e : PrismaError, e ≠ PrismaError.P2002 →
      signupCatch e = ⟨500, "Internal Server Error", ApiData.none⟩) := by
  have hany : db.users.any (fun u => u.email == email) = false := by
    rw [List.any_eq_false]
    intro u hu
    simp only [beq_iff_eq]
    exact hfresh u hu
  have hfilter : db.users.filter (fun u => u.email == email) = [] := by
    rw [List.filter_eq_nil_iff]
    intro u hu
    simp only [beq_iff_eq]
    exact hfresh u hu
  have h1 : signup db email p1 =
      (⟨200, email ++ " created successfully", ApiData.none⟩,
       { db with users := db.users ++ [⟨db.nextUserId, email, bcryptHash p1⟩],
                 nextUserId := db.nextUserId + 1 }) := by
    simp [signup, userCreate, hany]
  have h2 : signup (signup db email p1).2 email p2 =
      (⟨200, "Email already exists", ApiData.none⟩, (signup db email p1).2) := by
    rw [h1]
    simp [signup, userCreate, signupCatch]
  refine ⟨?_, h2, ?_, ?_⟩
  · rw [h1]
    simp [List.filter_append, hfilter]
  · rw [h2, h1]
    simp [List.filter_append, hfilter]
  · intro e he
    cases e with
    | P2002 => exact absurd rfl he
    | P2003 => rfl
    | P2025 => rfl
    | other code => rfl

/-- Witness for C5 at a concrete input: registering a fresh email twice
on the sample store keeps exactly one matching account row and reports
the conflict as a 200 message. -/
theorem signup_conflict_semantics_witness :
    ((signup sampleDB "c@x.com" "pw" ).2.users.filter
        (fun u => u.email == "c@x.com")).length = 1 ∧
    signup (signup sampleDB "c@x.com" "pw").2 "c@x.com" "pw9" =
      (⟨200, "Email already exists", ApiData.none⟩,
       (signup sampleDB "c@x.com" "pw").2) ∧
    signupCatch (PrismaError.other "P1000") =
      ⟨500, "Internal Server Error", ApiData.none⟩ := by
  have h := signup_conflict_semantics sampleDB "c@x.com" "pw" "pw9" (by decide)
  exact ⟨h.1, h.2.1, h.2.2.2 (PrismaError.other "P1000") (by decide)⟩

/-- Claim C7: renaming maps `setNickname` over the caught table and
touches nothing else; `setNickname` preserves the id, owner reference,
catalog reference and denormalized type of every row; and an update to
a Catalog Entry (PATCH /pokemon/:id) leaves every existing Caught
Record — in particular its snapshotted pokemonType — unchanged. -/
theorem rename_frame_and_snapshot
    (db : DB) (sub id pid : Nat) (nickname : Option String)
    (pname ptype : String) (ph : Int) :
    (updateCaught sub id nickname db).2.users = db.users ∧
    (updateCaught sub id nickname db).2.pokemons = db.pokemons ∧
    (updateCaught sub id nickname db).2.caught =
      db.caught.map (setNickname id sub nickname) ∧
    (∀ c : CaughtPokemon,
      (setNickname id sub nickname c).id = c.id ∧
      (setNickname id sub nickname c).userId = c.userId ∧
      (setNickname id sub nickname c).pokemonId = c.pokemonId ∧
      (setNickname id sub nickname c).pokemonType = c.pokemonType) ∧
    (patchPokemon pid pname ptype ph db).2.caught = db.caught := by
  refine ⟨?_, ?_, ?_, ?_, patchPokemon_caught pid pname ptype ph db⟩
  · rw [updateCaught_snd]
  · rw [updateCaught_snd]
  · rw [updateCaught_snd]
  · intro c
    unfold setNickname
    split <;> exact ⟨rfl, rfl, rfl, rfl⟩

/-- Counterexample for C2 as stated: on the sample store, account 2
releases record 1 (which exists but is owned by account 1); the joint
(id, owner) filter matches zero rows, yet the route answers 200
"Pokemon released" with the store unchanged instead of failing with the
404 NotFoundOrNotOwned outcome. -/
theorem release_zero_rows_succeeds :
    (caughtDeleteMany sampleDB 1 2).1 = 0 ∧
    deleteCaught 2 1 sampleDB =
      (⟨200, "Pokemon released", ApiData.none⟩, sampleDB) := by decide

/-- Claim C2 amended: release always answers 200 "Pokemon released";
it removes exactly the rows matching the joint (id, owner) filter, so
when zero rows match the store is unchanged but the response is still
success — unlike rename, which rejects the zero-row case with 404. -/
theorem release_semantics
    (db : DB) (sub id : Nat) (nickname : Option String) :
    (deleteCaught sub id db).1 = ⟨200, "Pokemon released", ApiData.none⟩ ∧
    (deleteCaught sub id db).2.users = db.users ∧
    (deleteCaught sub id db).2.pokemons = db.pokemons ∧
    (deleteCaught sub id db).2.caught =
      db.caught.filter (fun c => !(c.id == id && c.userId == sub)) ∧
    ((db.caught.filter (fun c => c.id == id && c.userId == sub)).length = 0 →
      (deleteCaught sub id db).2 = db ∧
      (updateCaught sub id nickname db).1 =
        ⟨404, "Pokemon not found or not owned by user", ApiData.none⟩) := by
  refine ⟨rfl, rfl, rfl, rfl, ?_⟩
  intro hlen
  have hnil : db.caught.filter (fun c => c.id == id && c.userId == sub) = [] :=
    List.length_eq_zero.mp hlen
  have hall : ∀ c ∈ db.caught, ¬(c.id == id && c.userId == sub) = true :=
    List.filter_eq_nil_iff.mp hnil
  constructor
  · have : db.caught.filter (fun c => !(c.id == id && c.userId == sub)) =
        db.caught := by
      rw [List.filter_eq_self]
      intro c hc
      cases hcond : (c.id == id && c.userId == sub) with
      | true => exact absurd hcond (hall c hc)
      | false => rfl
    simp only [deleteCaught, caughtDeleteMany]
    rw [this]
  · simp [updateCaught, caughtUpdateMany, hlen]

/-- Witness for C2's amended theorem at a concrete input. -/
theorem release_semantics_witness :
    (deleteCaught 2 1 sampleDB).1 = ⟨200, "Pokemon released", ApiData.none⟩ ∧
    (deleteCaught 2 1 sampleDB).2 = sampleDB ∧
    (updateCaught 2 1 (some "Sparky") sampleDB).1 =
      ⟨404, "Pokemon not found or not owned by user", ApiData.none⟩ := by
  have h := release_semantics sampleDB 2 1 (some "Sparky")
  exact ⟨h.1, (h.2.2.2.2 (by decide)).1, (h.2.2.2.2 (by decide)).2⟩

/-- When caught ids are unique, a row of another owner makes the joint
(id AND owner) filter match nothing. -/
theorem joint_filter_nil (db : DB) (R : CaughtPokemon) (B : Nat)
    (hids : (db.caught.map CaughtPokemon.id).Nodup)
    (hmem : R ∈ db.caught) (howner : R.userId ≠ B) :
    db.caught.filter (fun c => c.id == R.id && c.userId == B) = [] := by
  rw [List.filter_eq_nil_iff]
  intro c hc
  simp only [Bool.and_eq_true, beq_iff_eq, not_and]
  intro hid
  have hcR : c = R := List.inj_on_of_nodup_map hids hc hmem hid
  rw [hcR]
  exact howner

/-- An id that is absent from the caught table makes the joint filter
match nothing. -/
theorem joint_filter_nil_of_no_id (db : DB) (B idv : Nat)
    (hid : idv ∉ db.caught.map CaughtPokemon.id) :
    db.caught.filter (fun c => c.id == idv && c.userId == B) = [] := by
  rw [List.filter_eq_nil_iff]
  intro c hc
  simp only [Bool.and_eq_true, beq_iff_eq, not_and]
  intro hidEq
  exact absurd (hidEq ▸ List.mem_map_of_mem CaughtPokemon.id hc) hid

/-- Mapping the nickname update over rows none of which match the joint
filter changes nothing. -/
theorem map_setNickname_eq_self (l : List CaughtPokemon) (idv B : Nat)
    (nn : Option String)
    (h : ∀ c ∈ l, (c.id == idv && c.userId == B) = false) :
    l.map (setNickname idv B nn) = l := by
  have hid : ∀ c ∈ l, setNickname idv B nn c = c := by
    intro c hc
    unfold setNickname
    rw [h c hc]
    rfl
  calc l.map (setNickname idv B nn) = l.map id := List.map_congr_left hid
    _ = l := List.map_id l

/-- When the joint filter matches nothing, the rename route answers 404
NotFoundOrNotOwned and the store is unchanged. -/
theorem updateCaught_zero (db : DB) (B idv : Nat) (nickname : Option String)
    (hnil : db.caught.filter (fun c => c.id == idv && c.userId == B) = []) :
    updateCaught B idv nickname db =
      (⟨404, "Pokemon not found or not owned by user", ApiData.none⟩, db) := by
  have hfalse : ∀ c ∈ db.caught, (c.id == idv && c.userId == B) = false := by
    intro c hc
    have hnot := List.filter_eq_nil_iff.mp hnil c hc
    cases hcond : (c.id == idv && c.userId == B) with
    | true => exact absurd hcond hnot
    | false => rfl
  have hmap := map_setNickname_eq_self db.caught idv B nickname hfalse
  simp [updateCaught, caughtUpdateMany, hnil, hmap]

/-- Claim C1: a caught record R owned by A is invisible and immutable to
any other account B — the list route never returns R to B, the joint
(id AND owner) filters of rename and release match zero rows for B on
R's id, B's rename attempt is rejected with the 404 NotFoundOrNotOwned
outcome leaving the store unchanged, and a nonexistent id yields the
very same outcome. -/
theorem ownership_scoping
    (db : DB) (R : CaughtPokemon) (B : Nat) (nickname : Option String)
    (hids : (db.caught.map CaughtPokemon.id).Nodup)
    (hmem : R ∈ db.caught) (howner : R.userId ≠ B) :
    (∀ j, (R, j) ∉ getCaughtList B db) ∧
    (caughtUpdateMany db R.id B nickname).1 = 0 ∧
    (caughtDeleteMany db R.id B).1 = 0 ∧
    updateCaught B R.id nickname db =
      (⟨404, "Pokemon not found or not owned by user", ApiData.none⟩, db) ∧
    (∀ idv, idv ∉ db.caught.map CaughtPokemon.id →
      updateCaught B idv nickname db =
        (⟨404, "Pokemon not found or not owned by user", ApiData.none⟩, db)) := by
  have hnil := joint_filter_nil db R B hids hmem howner
  refine ⟨?_, ?_, ?_, updateCaught_zero db B R.id nickname hnil, ?_⟩
  · intro j hj
    unfold getCaughtList at hj
    obtain ⟨c, hc, heq⟩ := List.mem_map.mp hj
    have hcR : c = R := congrArg Prod.fst heq
    have hmemB := (List.mem_filter.mp (by unfold caughtFindMany at hc; exact hc)).2
    rw [hcR] at hmemB
    exact howner (by simpa using hmemB)
  · simp [caughtUpdateMany, hnil]
  · simp [caughtDeleteMany, hnil]
  · intro idv hidv
    exact updateCaught_zero db B idv nickname (joint_filter_nil_of_no_id db B idv hidv)

/-- Witness for C1 at a concrete input: on the sample store, record 1
is owned by account 1; account 2 matches zero rows on it, gets the 404
NotFoundOrNotOwned rejection (identical for the nonexistent id 99), and
does not see it in the list route. -/
theorem ownership_scoping_witness :
    (⟨1, 1, 1, Option.none, "electric"⟩,
      some (⟨1, "pikachu", "electric", 4⟩ : Pokemon)) ∉ getCaughtList 2 sampleDB ∧
    (caughtUpdateMany sampleDB 1 2 (some "x")).1 = 0 ∧
    (caughtDeleteMany sampleDB 1 2).1 = 0 ∧
    updateCaught 2 1 (some "x") sampleDB =
      (⟨404, "Pokemon not found or not owned by user", ApiData.none⟩, sampleDB) ∧
    updateCaught 2 99 (some "x") sampleDB =
      (⟨404, "Pokemon not found or not owned by user", ApiData.none⟩, sampleDB) := by
  have h := ownership_scoping sampleDB ⟨1, 1, 1, Option.none, "electric"⟩ 2
    (some "x") (by decide) (by decide) (by decide)
  exact ⟨h.1 (some ⟨1, "pikachu", "electric", 4⟩), h.2.1, h.2.2.1, h.2.2.2.1,
    h.2.2.2.2 99 (by decide)⟩

/-- A local miss means no row carries the name. -/
theorem any_name_false_of_find_none (db : DB) (name : String)
    (h : pokemonFindByName db name = none) :
    db.pokemons.any (fun p => p.name == name) = false := by
  rw [List.any_eq_false]
  unfold pokemonFindByName at h
  exact fun p hp => List.find?_eq_none.mp h p hp

/-- Catching a name whose catalog entry exists: no catalog write happens,
and the new caught record snapshots the existing entry's type. -/
theorem catch_existing (db : DB) (sub : Nat) (name type : String)
    (height : Int) (p : Pokemon)
    (hfind : pokemonFindByName db name = some p)
    (huser : db.users.any (fun u => u.id == sub) = true) :
    catchPokemon sub name type height db =
      (⟨200, "Pokemon caught",
        ApiData.caughtRecord ⟨db.nextCaughtId, sub, p.id, Option.none, p.type⟩⟩,
       { db with
           caught := db.caught ++ [⟨db.nextCaughtId, sub, p.id, Option.none, p.type⟩],
           nextCaughtId := db.nextCaughtId + 1 }) := by
  have hpmem : p ∈ db.pokemons := by
    unfold pokemonFindByName at hfind
    exact List.mem_of_find?_eq_some hfind
  have hanyid : db.pokemons.any (fun q => q.id == p.id) = true := by
    rw [List.any_eq_true]
    exact ⟨p, hpmem, by simp⟩
  simp [catchPokemon, hfind, caughtCreate, huser, hanyid]

/-- Claim C6: catching a name not in the catalog creates exactly one
Catalog Entry (with the caller-supplied type and height) and exactly one
Caught Record; catching a name already in the catalog writes no catalog
row and snapshots the existing entry's type into the new record, so the
caller-supplied type and height are used only when the entry is new. -/
theorem catch_find_or_create
    (db : DB) (sub : Nat) (name type : String) (height : Int)
    (huser : db.users.any (fun u => u.id == sub) = true) :
    (pokemonFindByName db name = none →
      catchPokemon sub name type height db =
        (⟨200, "Pokemon caught",
          ApiData.caughtRecord ⟨db.nextCaughtId, sub, db.nextPokemonId, Option.none, type⟩⟩,
         { db with
             pokemons := db.pokemons ++ [⟨db.nextPokemonId, name, type, height⟩],
             nextPokemonId := db.nextPokemonId + 1,
             caught := db.caught ++ [⟨db.nextCaughtId, sub, db.nextPokemonId, Option.none, type⟩],
             nextCaughtId := db.nextCaughtId + 1 }) ∧
      ((db.pokemons ++ [(⟨db.nextPokemonId, name, type, height⟩ : Pokemon)]).filter
          (fun q => q.name == name)).length = 1) ∧
    (∀ p, pokemonFindByName db name = some p →
      catchPokemon sub name type height db =
        (⟨200, "Pokemon caught",
          ApiData.caughtRecord ⟨db.nextCaughtId, sub, p.id, Option.none, p.type⟩⟩,
         { db with
             caught := db.caught ++ [⟨db.nextCaughtId, sub, p.id, Option.none, p.type⟩],
             nextCaughtId := db.nextCaughtId + 1 })) := by
  constructor
  · intro hnone
    have hanyname := any_name_false_of_find_none db name hnone
    have hfilter : db.pokemons.filter (fun q => q.name == name) = [] :=
      List.filter_eq_nil_iff.mpr (List.any_eq_false.mp hanyname)
    constructor
    · simp [catchPokemon, hnone, pokemonCreate, hanyname, caughtCreate, huser,
        List.any_append]
    · simp [List.filter_append, hfilter]
  · intro p hp
    exact catch_existing db sub name type height p hp huser

/-- Witness for C6 at a concrete input: catching the fresh name
"bulbasaur" creates one catalog row and one caught record; catching
"pikachu" again reuses catalog row 1 and snapshots its type. -/
theorem catch_find_or_create_witness :
    catchPokemon 2 "bulbasaur" "grass" 7 sampleDB =
      (⟨200, "Pokemon caught", ApiData.caughtRecord ⟨2, 2, 2, Option.none, "grass"⟩⟩,
       ⟨[⟨1, "a@x.com", bcryptHash "pw1"⟩, ⟨2, "b@x.com", bcryptHash "pw2"⟩],
        [⟨1, "pikachu", "electric", 4⟩, ⟨2, "bulbasaur", "grass", 7⟩],
        [⟨1, 1, 1, Option.none, "electric"⟩, ⟨2, 2, 2, Option.none, "grass"⟩],
        3, 3, 3⟩) ∧
    ((sampleDB.pokemons ++ [(⟨2, "bulbasaur", "grass", 7⟩ : Pokemon)]).filter
        (fun q => q.name == "bulbasaur")).length = 1 ∧
    catchPokemon 2 "pikachu" "x" 0 sampleDB =
      (⟨200, "Pokemon caught", ApiData.caughtRecord ⟨2, 2, 1, Option.none, "electric"⟩⟩,
       ⟨[⟨1, "a@x.com", bcryptHash "pw1"⟩, ⟨2, "b@x.com", bcryptHash "pw2"⟩],
        [⟨1, "pikachu", "electric", 4⟩],
        [⟨1, 1, 1, Option.none, "electric"⟩, ⟨2, 2, 1, Option.none, "electric"⟩],
        3, 2, 3⟩) := by
  have h := catch_find_or_create sampleDB 2 "bulbasaur" "grass" 7 (by decide)
  have h2 := catch_find_or_create sampleDB 2 "pikachu" "x" 0 (by decide)
  exact ⟨(h.1 (by decide)).1, (h.1 (by decide)).2,
    h2.2 ⟨1, "pikachu", "electric", 4⟩ (by decide)⟩

/-- Claim C9: nothing enforces uniqueness of the (owner, catalog entry)
pair — a subject who already owns a caught record for a creature gets a
second record for the very same catalog entry on the next catch, so the
collection holds two (or more) rows for that pair. -/
theorem catch_allows_duplicates
    (db : DB) (sub : Nat) (name type : String) (height : Int)
    (p : Pokemon) (c0 : CaughtPokemon)
    (hfind : pokemonFindByName db name = some p)
    (hc0 : c0 ∈ db.caught) (hc0u : c0.userId = sub) (hc0p : c0.pokemonId = p.id)
    (huser : db.users.any (fun u => u.id == sub) = true) :
    catchPokemon sub name type height db =
      (⟨200, "Pokemon caught",
        ApiData.caughtRecord ⟨db.nextCaughtId, sub, p.id, Option.none, p.type⟩⟩,
       { db with
           caught := db.caught ++ [⟨db.nextCaughtId, sub, p.id, Option.none, p.type⟩],
           nextCaughtId := db.nextCaughtId + 1 }) ∧
    2 ≤ ((db.caught ++ [(⟨db.nextCaughtId, sub, p.id, Option.none, p.type⟩ : CaughtPokemon)]).filter
          (fun c => c.userId == sub && c.pokemonId == p.id)).length := by
  refine ⟨catch_existing db sub name type height p hfind huser, ?_⟩
  rw [List.filter_append]
  have h1 : c0 ∈ db.caught.filter (fun c => c.userId == sub && c.pokemonId == p.id) :=
    List.mem_filter.mpr ⟨hc0, by simp [hc0u, hc0p]⟩
  have h2 := List.length_pos_of_mem h1
  have h3 : (([⟨db.nextCaughtId, sub, p.id, Option.none, p.type⟩] :
      List CaughtPokemon).filter
        (fun c => c.userId == sub && c.pokemonId == p.id)).length = 1 := by simp
  rw [List.length_append, h3]
  omega

/-- Witness for C9 at a concrete input: account 1 already owns a record
for catalog entry 1 ("pikachu") in the sample store; catching it again
yields a second record for the same (owner, entry) pair. -/
theorem catch_allows_duplicates_witness :
    catchPokemon 1 "pikachu" "x" 0 sampleDB =
      (⟨200, "Pokemon caught", ApiData.caughtRecord ⟨2, 1, 1, Option.none, "electric"⟩⟩,
       ⟨[⟨1, "a@x.com", bcryptHash "pw1"⟩, ⟨2, "b@x.com", bcryptHash "pw2"⟩],
        [⟨1, "pikachu", "electric", 4⟩],
        [⟨1, 1, 1, Option.none, "electric"⟩, ⟨2, 1, 1, Option.none, "electric"⟩],
        3, 2, 3⟩) ∧
    2 ≤ ((sampleDB.caught ++ [(⟨2, 1, 1, Option.none, "electric"⟩ : CaughtPokemon)]).filter
          (fun c => c.userId == 1 && c.pokemonId == 1)).length := by
  have h := catch_allows_duplicates sampleDB 1 "pikachu" "x" 0
    ⟨1, "pikachu", "electric", 4⟩ ⟨1, 1, 1, Option.none, "electric"⟩
    (by decide) (by decide) rfl rfl (by decide)
  exact h

/-- Claim C8: GET /pokemon/:name returns the locally stored Catalog Entry
with no external call on a hit (the result does not depend on the
external service at all); on a miss it calls the external service,
persists the mapped entry (joined type classification, height) and
returns it; on external failure/not-found it answers 404 with the store
unchanged; name-uniqueness is never violated (at most one stored entry
per name is preserved), and — when the service echoes the requested
name — resolving the same name twice stores the entry exactly once, the
second call being a pure local hit. -/
theorem resolve_cache
    (ext : String → Option ExtPokemon) (name : String) (db : DB)
    (d : ExtPokemon) :
    (∀ p, pokemonFindByName db name = some p →
      getPokemon ext name db = (⟨200, "", ApiData.pokemonData p⟩, db) ∧
      (∀ ext2 : String → Option ExtPokemon,
        getPokemon ext2 name db = getPokemon ext name db)) ∧
    (pokemonFindByName db name = none → ext name = Option.none →
      getPokemon ext name db = (⟨404, "Pokemon not found", ApiData.none⟩, db)) ∧
    (pokemonFindByName db name = none → ext name = some d →
      pokemonFindByName db d.name = none →
      getPokemon ext name db =
        (⟨200, "",
          ApiData.pokemonData ⟨db.nextPokemonId, d.name, extTypeString d, d.height⟩⟩,
         { db with
             pokemons := db.pokemons ++
               [(⟨db.nextPokemonId, d.name, extTypeString d, d.height⟩ : Pokemon)],
             nextPokemonId := db.nextPokemonId + 1 })) ∧
    (pokemonFindByName db name = none → ext name = some d →
      (∃ q ∈ db.pokemons, q.name = d.name) →
      getPokemon ext name db = (⟨404, "Pokemon not found", ApiData.none⟩, db)) ∧
    (∀ n : String, (db.pokemons.filter (fun q => q.name == n)).length ≤ 1 →
      ((getPokemon ext name db).2.pokemons.filter (fun q => q.name == n)).length ≤ 1) ∧
    (pokemonFindByName db name = none → ext name = some d → d.name = name →
      getPokemon ext name (getPokemon ext name db).2 =
        ((getPokemon ext name db).1, (getPokemon ext name db).2)) := by
  refine ⟨?_, ?_, ?_, ?_, ?_, ?_⟩
  · intro p hp
    exact ⟨by simp [getPokemon, hp], fun ext2 => by simp [getPokemon, hp]⟩
  · intro hnone hext
    simp [getPokemon, hnone, hext]
  · intro hnone hext hd2
    have hany2 := any_name_false_of_find_none db d.name hd2
    simp [getPokemon, hnone, hext, pokemonCreate, hany2]
  · intro hnone hext hcol
    have hany : db.pokemons.any (fun q => q.name == d.name) = true := by
      rw [List.any_eq_true]
      obtain ⟨q, hq, hqn⟩ := hcol
      exact ⟨q, hq, by simp [hqn]⟩
    simp [getPokemon, hnone, hext, pokemonCreate, hany]
  · intro n hn
    cases hf : pokemonFindByName db name with
    | some p => simpa [getPokemon, hf] using hn
    | none =>
        cases he : ext name with
        | none => simpa [getPokemon, hf, he] using hn
        | some d2 =>
            by_cases hc : db.pokemons.any (fun q => q.name == d2.name) = true
            · simpa [getPokemon, hf, he, pokemonCreate, hc] using hn
            · have hcf : db.pokemons.any (fun q => q.name == d2.name) = false :=
                Bool.eq_false_iff.mpr hc
              simp only [getPokemon, hf, he, pokemonCreate, hcf, Bool.false_eq_true,
                if_false]
              rw [List.filter_append, List.length_append]
              by_cases hnn : d2.name = n
              · have hfil : db.pokemons.filter (fun q => q.name == n) = [] := by
                  rw [List.filter_eq_nil_iff]
                  intro q hq
                  intro hqn
                  rw [List.any_eq_false] at hcf
                  exact hcf q hq (by rw [hnn]; exact hqn)
                simp [hfil, hnn]
              · have hfil1 : ([(⟨db.nextPokemonId, d2.name, extTypeString d2,
                    d2.height⟩ : Pokemon)].filter (fun q => q.name == n)).length = 0 := by
                  simp [hnn]
                rw [hfil1]
                simpa using hn
  · intro hnone hext hdname
    have hany := any_name_false_of_find_none db name hnone
    have hanyd : db.pokemons.any (fun q => q.name == d.name) = false := by
      rw [hdname]
      exact hany
    have h1 : getPokemon ext name db =
        (⟨200, "",
          ApiData.pokemonData ⟨db.nextPokemonId, d.name, extTypeString d, d.height⟩⟩,
         { db with
             pokemons := db.pokemons ++
               [(⟨db.nextPokemonId, d.name, extTypeString d, d.height⟩ : Pokemon)],
             nextPokemonId := db.nextPokemonId + 1 }) := by
      simp [getPokemon, hnone, hext, pokemonCreate, hanyd]
    rw [h1]
    have hf2 : pokemonFindByName
        { db with
            pokemons := db.pokemons ++
              [(⟨db.nextPokemonId, d.name, extTypeString d, d.height⟩ : Pokemon)],
            nextPokemonId := db.nextPokemonId + 1 } name =
        some ⟨db.nextPokemonId, d.name, extTypeString d, d.height⟩ := by
      unfold pokemonFindByName at hnone ⊢
      simp only [List.find?_append, hnone, Option.none_or]
      simp [hdname]
    simp [getPokemon, hf2]

/-- Witness for C8 at a concrete input: on the sample store, resolving
"pikachu" is a local hit; resolving the fresh "mew" with a service that
echoes the name persists exactly one entry and a second resolve is a
hit on it; with a failing service the fresh "ditto" yields 404. -/
theorem resolve_cache_witness :
    getPokemon (fun n => some ⟨n, ["psychic"], 4⟩) "pikachu" sampleDB =
      (⟨200, "", ApiData.pokemonData ⟨1, "pikachu", "electric", 4⟩⟩, sampleDB) ∧
    getPokemon (fun n => some ⟨n, ["psychic"], 4⟩) "mew" sampleDB =
      (⟨200, "", ApiData.pokemonData ⟨2, "mew", "psychic", 4⟩⟩,
       ⟨sampleDB.users,
        [⟨1, "pikachu", "electric", 4⟩, ⟨2, "mew", "psychic", 4⟩],
        sampleDB.caught, 3, 3, 2⟩) ∧
    getPokemon (fun n => some ⟨n, ["psychic"], 4⟩) "mew"
        (getPokemon (fun n => some ⟨n, ["psychic"], 4⟩) "mew" sampleDB).2 =
      ((getPokemon (fun n => some ⟨n, ["psychic"], 4⟩) "mew" sampleDB).1,
       (getPokemon (fun n => some ⟨n, ["psychic"], 4⟩) "mew" sampleDB).2) ∧
    getPokemon (fun _ => Option.none) "ditto" sampleDB =
      (⟨404, "Pokemon not found", ApiData.none⟩, sampleDB) := by
  have hhit := resolve_cache (fun n => some ⟨n, ["psychic"], 4⟩) "pikachu" sampleDB
    ⟨"pikachu", ["psychic"], 4⟩
  have hmiss := resolve_cache (fun n => some ⟨n, ["psychic"], 4⟩) "mew" sampleDB
    ⟨"mew", ["psychic"], 4⟩
  have hfail := resolve_cache (fun _ => Option.none) "ditto" sampleDB
    ⟨"ditto", [], 0⟩
  refine ⟨(hhit.1 ⟨1, "pikachu", "electric", 4⟩ (by decide)).1, ?_, ?_, ?_⟩
  · exact hmiss.2.2.1 (by decide) rfl (by decide)
  · exact hmiss.2.2.2.2.2 (by decide) rfl rfl
  · exact hfail.2.1 (by decide) rfl

/-- Referential integrity of the caught table: every row's catalog
reference and owner reference point to existing rows, as the two
declared foreign keys demand. -/
def RefIntegrity (db : DB) : Prop :=
  ∀ c ∈ db.caught,
    (∃ p ∈ db.pokemons, p.id = c.pokemonId) ∧ (∃ u ∈ db.users, u.id = c.userId)

/-- Appending user rows preserves referential integrity. -/
theorem refIntegrity_users_append (db : DB) (l : List User) (n : Nat)
    (h : RefIntegrity db) :
    RefIntegrity { db with users := db.users ++ l, nextUserId := n } := by
  intro c hc
  obtain ⟨⟨p, hp, hpe⟩, ⟨u, hu, hue⟩⟩ := h c hc
  exact ⟨⟨p, hp, hpe⟩, ⟨u, List.mem_append_left l hu, hue⟩⟩

/-- Appending catalog rows preserves referential integrity. -/
theorem refIntegrity_pokemons_append (db : DB) (l : List Pokemon) (n : Nat)
    (h : RefIntegrity db) :
    RefIntegrity { db with pokemons := db.pokemons ++ l, nextPokemonId := n } := by
  intro c hc
  obtain ⟨⟨p, hp, hpe⟩, ⟨u, hu, hue⟩⟩ := h c hc
  exact ⟨⟨p, List.mem_append_left l hp, hpe⟩, ⟨u, hu, hue⟩⟩

/-- POST /signup preserves referential integrity. -/
theorem refIntegrity_signup (db : DB) (email pw : String) (h : RefIntegrity db) :
    RefIntegrity (signup db email pw).2 := by
  by_cases hb : db.users.any (fun u => u.email == email) = true
  · simpa [signup, userCreate, hb] using h
  · have hbf := Bool.eq_false_iff.mpr hb
    simp only [signup, userCreate, hbf, Bool.false_eq_true, if_false]
    exact refIntegrity_users_append db _ _ h

/-- A successful caughtCreate preserves referential integrity: the two
foreign keys of the new row were checked by the insert. -/
theorem refIntegrity_caughtCreate (db : DB) (uId pId : Nat) (pt : String)
    (c : CaughtPokemon) (db' : DB)
    (hok : caughtCreate db uId pId pt = Except.ok (c, db'))
    (h : RefIntegrity db) : RefIntegrity db' := by
  unfold caughtCreate at hok
  by_cases hu : db.users.any (fun u => u.id == uId) = true
  · by_cases hp : db.pokemons.any (fun p => p.id == pId) = true
    · rw [if_pos hu, if_pos hp] at hok
      cases hok
      intro x hx
      rw [List.mem_append] at hx
      cases hx with
      | inl hold => exact h x hold
      | inr hnew =>
          rw [List.mem_singleton] at hnew
          subst hnew
          obtain ⟨p, hpmem, hpe⟩ := List.any_eq_true.mp hp
          obtain ⟨u, humem, hue⟩ := List.any_eq_true.mp hu
          exact ⟨⟨p, hpmem, by simpa using hpe⟩, ⟨u, humem, by simpa using hue⟩⟩
    · rw [if_pos hu, if_neg hp] at hok
      cases hok
  · rw [if_neg hu] at hok
    cases hok

/-- POST /protected/catch preserves referential integrity. -/
theorem refIntegrity_catch (db : DB) (sub : Nat) (nm ty : String) (ht : Int)
    (h : RefIntegrity db) : RefIntegrity (catchPokemon sub nm ty ht db).2 := by
  unfold catchPokemon
  cases hf : pokemonFindByName db nm with
  | some p =>
      cases hcc : caughtCreate db sub p.id p.type with
      | ok pr =>
          obtain ⟨c, db'⟩ := pr
          simpa [hcc] using refIntegrity_caughtCreate db sub p.id p.type c db' hcc h
      | error e => simpa [hcc] using h
  | none =>
      by_cases hb : db.pokemons.any (fun q => q.name == nm) = true
      · simpa [pokemonCreate, hb] using h
      · have hbf := Bool.eq_false_iff.mpr hb
        simp only [pokemonCreate, hbf, Bool.false_eq_true, if_false]
        have hdb1 : RefIntegrity
            { db with pokemons := db.pokemons ++ [(⟨db.nextPokemonId, nm, ty, ht⟩ : Pokemon)],
                      nextPokemonId := db.nextPokemonId + 1 } :=
          refIntegrity_pokemons_append db _ _ h
        cases hcc : caughtCreate
            { db with pokemons := db.pokemons ++ [(⟨db.nextPokemonId, nm, ty, ht⟩ : Pokemon)],
                      nextPokemonId := db.nextPokemonId + 1 }
            sub db.nextPokemonId ty with
        | ok pr =>
            obtain ⟨c, db2⟩ := pr
            simpa [hcc] using refIntegrity_caughtCreate _ sub db.nextPokemonId ty c db2 hcc hdb1
        | error e => simpa [hcc] using hdb1

/-- PATCH /protected/update/:id preserves referential integrity. -/
theorem refIntegrity_update (db : DB) (sub idv : Nat) (nn : Option String)
    (h : RefIntegrity db) : RefIntegrity (updateCaught sub idv nn db).2 := by
  rw [updateCaught_snd]
  intro c hc
  obtain ⟨c0, hc0, hceq⟩ := List.mem_map.mp hc
  have hfields : (setNickname idv sub nn c0).pokemonId = c0.pokemonId ∧
      (setNickname idv sub nn c0).userId = c0.userId := by
    unfold setNickname
    split <;> exact ⟨rfl, rfl⟩
  obtain ⟨⟨p, hp, hpe⟩, ⟨u, hu, hue⟩⟩ := h c0 hc0
  subst hceq
  exact ⟨⟨p, hp, by rw [hpe, ← hfields.1]⟩, ⟨u, hu, by rw [hue, ← hfields.2]⟩⟩

/-- DELETE /protected/delete/:id preserves referential integrity. -/
theorem refIntegrity_release (db : DB) (sub idv : Nat)
    (h : RefIntegrity db) : RefIntegrity (deleteCaught sub idv db).2 := by
  intro c hc
  exact h c (List.mem_of_mem_filter hc)

/-- GET /pokemon/:name preserves referential integrity. -/
theorem refIntegrity_getPokemon (ext : String → Option ExtPokemon)
    (nm : String) (db : DB) (h : RefIntegrity db) :
    RefIntegrity (getPokemon ext nm db).2 := by
  unfold getPokemon
  cases hf : pokemonFindByName db nm with
  | some p => simpa using h
  | none =>
      cases he : ext nm with
      | none => simpa using h
      | some d =>
          by_cases hb : db.pokemons.any (fun q => q.name == d.name) = true
          · simpa [pokemonCreate, hb] using h
          · have hbf := Bool.eq_false_iff.mpr hb
            simp only [pokemonCreate, hbf, Bool.false_eq_true, if_false]
            exact refIntegrity_pokemons_append db _ _ h

/-- POST /pokemon preserves referential integrity. -/
theorem refIntegrity_postPokemon (nm ty : String) (ht : Int) (db : DB)
    (h : RefIntegrity db) : RefIntegrity (postPokemon nm ty ht db).2 := by
  unfold postPokemon
  cases hf : pokemonFindByName db nm with
  | some p => simpa using h
  | none =>
      by_cases hb : db.pokemons.any (fun q => q.name == nm) = true
      · simpa [pokemonCreate, hb] using h
      · have hbf := Bool.eq_false_iff.mpr hb
        simp only [pokemonCreate, hbf, Bool.false_eq_true, if_false]
        exact refIntegrity_pokemons_append db _ _ h

/-- PATCH /pokemon/:id preserves referential integrity: the update keeps
every row's id. -/
theorem refIntegrity_patchPokemon (pid : Nat) (nm ty : String) (ht : Int)
    (db : DB) (h : RefIntegrity db) :
    RefIntegrity (patchPokemon pid nm ty ht db).2 := by
  unfold patchPokemon
  cases hup : pokemonUpdate db pid nm ty ht with
  | error e => cases e <;> simpa using h
  | ok pr =>
      obtain ⟨p, db'⟩ := pr
      obtain ⟨hcE, huE, hpE⟩ := pokemonUpdate_ok_inv db pid nm ty ht p db' hup
      intro c hc
      rw [show (Except.ok (p, db') : Except PrismaError (Pokemon × DB)) = _ from rfl] at hc
      have hc' : c ∈ db.caught := by
        simp only at hc
        rw [hcE] at hc
        exact hc
      obtain ⟨⟨q, hq, hqe⟩, ⟨u, hu, hue⟩⟩ := h c hc'
      refine ⟨⟨(fun r => if r.id == pid then (⟨r.id, nm, ty, ht⟩ : Pokemon) else r) q,
        ?_, ?_⟩, ⟨u, ?_, hue⟩⟩
      · simp only
        rw [hpE]
        exact List.mem_map_of_mem _ hq
      · simp only
        split <;> simpa using hqe
      · simp only
        rw [huE]
        exact hu

/-- DELETE /pokemon/:name preserves referential integrity, given unique
catalog names: the RESTRICT check guarantees the removed row (the unique
row of that name) is unreferenced. -/
theorem refIntegrity_deletePokemon (nm : String) (db : DB)
    (hnames : (db.pokemons.map Pokemon.name).Nodup)
    (h : RefIntegrity db) : RefIntegrity (deletePokemon nm db).2 := by
  unfold deletePokemon pokemonDelete
  cases hf : db.pokemons.find? (fun p => p.name == nm) with
  | none => simpa using h
  | some p =>
      by_cases hr : db.caught.any (fun c => c.pokemonId == p.id) = true
      · simpa [hr] using h
      · have hrf := Bool.eq_false_iff.mpr hr
        simp only [hrf, Bool.false_eq_true, if_false]
        intro c hc
        have hc' : c ∈ db.caught := hc
        obtain ⟨⟨q, hq, hqe⟩, ⟨u, hu, hue⟩⟩ := h c hc'
        have hqname : q.name ≠ nm := by
          intro hqn
          have hpmem : p ∈ db.pokemons := List.mem_of_find?_eq_some hf
          have hpname : p.name = nm := by
            have := List.find?_some hf
            simpa using this
          have hqp : q = p :=
            List.inj_on_of_nodup_map hnames hq hpmem (by rw [hqn, hpname])
          rw [List.any_eq_false] at hrf
          exact hrf c hc' (by simp [← hqe, hqp])
        refine ⟨⟨q, ?_, hqe⟩, ⟨u, hu, hue⟩⟩
        simp only
        exact List.mem_filter.mpr ⟨hq, by simpa using hqname⟩

/-- The administrative catalog delete is rejected by RESTRICT whenever
the named entry is referenced: it surfaces as a 500 Internal error and
the store is unchanged. -/
theorem deletePokemon_restrict (nm : String) (db : DB) (p : Pokemon)
    (hfind : pokemonFindByName db nm = some p)
    (href : db.caught.any (fun c => c.pokemonId == p.id) = true) :
    deletePokemon nm db = (⟨500, "Internal Server Error", ApiData.none⟩, db) := by
  unfold pokemonFindByName at hfind
  simp [deletePokemon, pokemonDelete, hfind, href]

/-- Claim C10: referential integrity of catches — every caught row's
catalog and owner references point to existing rows — is preserved by
every operation of the service, and the administrative catalog delete
is rejected by the ON DELETE RESTRICT foreign key whenever the entry is
referenced, surfacing as a 500 Internal error with the store
unchanged. -/
theorem referential_integrity_preserved
    (db : DB) (email pw nm ty : String) (ht : Int) (sub idv pid : Nat)
    (nn : Option String) (ext : String → Option ExtPokemon)
    (hint : RefIntegrity db)
    (hnames : (db.pokemons.map Pokemon.name).Nodup) :
    RefIntegrity (signup db email pw).2 ∧
    RefIntegrity (catchPokemon sub nm ty ht db).2 ∧
    RefIntegrity (updateCaught sub idv nn db).2 ∧
    RefIntegrity (deleteCaught sub idv db).2 ∧
    RefIntegrity (getPokemon ext nm db).2 ∧
    RefIntegrity (postPokemon nm ty ht db).2 ∧
    RefIntegrity (patchPokemon pid nm ty ht db).2 ∧
    RefIntegrity (deletePokemon nm db).2 ∧
    (∀ p, pokemonFindByName db nm = some p →
      db.caught.any (fun c => c.pokemonId == p.id) = true →
      deletePokemon nm db = (⟨500, "Internal Server Error", ApiData.none⟩, db)) :=
  ⟨refIntegrity_signup db email pw hint,
   refIntegrity_catch db sub nm ty ht hint,
   refIntegrity_update db sub idv nn hint,
   refIntegrity_release db sub idv hint,
   refIntegrity_getPokemon ext nm db hint,
   refIntegrity_postPokemon nm ty ht db hint,
   refIntegrity_patchPokemon pid nm ty ht db hint,
   refIntegrity_deletePokemon nm db hnames hint,
   fun p hp href => deletePokemon_restrict nm db p hp href⟩

/-- Witness for C10 at a concrete input: on the sample store, catching
"pikachu" keeps integrity, and deleting the referenced entry "pikachu"
is rejected with 500 and the store unchanged. -/
theorem referential_integrity_preserved_witness :
    RefIntegrity (catchPokemon 1 "pikachu" "x" 0 sampleDB).2 ∧
    RefIntegrity (deleteCaught 1 1 sampleDB).2 ∧
    deletePokemon "pikachu" sampleDB =
      (⟨500, "Internal Server Error", ApiData.none⟩, sampleDB) := by
  have h := referential_integrity_preserved sampleDB "e" "p" "pikachu" "x" 0 1 1 1
    (some "n") (fun _ => Option.none)
    (by unfold RefIntegrity; decide) (by decide)
  exact ⟨h.2.1, h.2.2.2.1,
    h.2.2.2.2.2.2.2.2 ⟨1, "pikachu", "electric", 4⟩ (by decide) (by decide)⟩
